import Mathlib

/-!
Verification of the document-parsing pipeline (Malay-RB/Document_parsing).

Shallow embedding of the components the claims are about:
  * `src/semantics/semantics.py`      — SemanticClassifier, transform_structure
  * `src/processing/page_no_tracker.py` — PageNumberTracker.resolve
  * `src/modules/extract.py`          — run_single_page / run_deep_extraction
  * `src/processing/pipeline_utils.py` — run_sync_phase (and main.py's inline sync check)
  * `src/processing/optimize_layout.py` — get_unified_sorting
  * `src/processing/page_strategy.py` — find_printed_page_no and helpers
  * `src/modules/toc_extractor.py`    — TOCProcessorAPI.transform_logic
  * `src/processing/structural_matcher.py` — StructuralMatcher.resolve_hierarchy

Python strings are modelled as `List Char`; machine integers as `Int`
(no overflow is possible at the magnitudes involved); `None` as `Option`.
External services (layout model, OCR engines, pdf loader, difflib) are
inputs of the embedded functions, mirroring the call contracts in the code.
Regular expressions from the source are translated pattern-by-pattern into
executable character-list functions; each definition cites the pattern it
implements.  Functions that re-scan after a replacement take an explicit
fuel argument (always called with `length + 1`, which is sufficient because
every step consumes at least one character); this keeps every definition
structurally recursive and hence evaluable by `decide`.
-/

set_option maxRecDepth 20000
set_option maxHeartbeats 1000000

/-- Characters of a string literal (Python `str` as `List Char`). -/
def lc (s : String) : List Char := s.data

/-- Python whitespace for `str.strip()` / regex `\s` (ASCII + Latin-1 +
Unicode space separators; matches `str.isspace`). -/
def pyIsSpace (c : Char) : Bool :=
  let n := c.toNat
  (9 ≤ n ∧ n ≤ 13) ∨ n = 32 ∨ (28 ≤ n ∧ n ≤ 31) ∨ n = 0x85 ∨ n = 0xa0 ∨
  n = 0x1680 ∨ (0x2000 ≤ n ∧ n ≤ 0x200a) ∨ n = 0x2028 ∨ n = 0x2029 ∨
  n = 0x202f ∨ n = 0x205f ∨ n = 0x3000

/-- Python `str.isprintable` restricted to the character ranges the pipeline
meets (Basic Latin, Latin-1, general punctuation): control characters and
non-space separators are not printable. -/
def pyIsPrintable (c : Char) : Bool :=
  let n := c.toNat
  ¬(n < 0x20 ∨ (0x7f ≤ n ∧ n ≤ 0xa0) ∨ n = 0xad ∨ n = 0x1680 ∨
    (0x2000 ≤ n ∧ n ≤ 0x200f) ∨ n = 0x2028 ∨ n = 0x2029 ∨
    (0x202a ≤ n ∧ n ≤ 0x202f) ∨ n = 0x205f ∨ (0x2060 ≤ n ∧ n ≤ 0x2064) ∨
    n = 0xfeff ∨ n = 0x3000)

/-- ASCII decimal digit (regex `\d` on the pipeline's inputs). -/
def pyIsDigit (c : Char) : Bool := '0' ≤ c ∧ c ≤ '9'

/-- ASCII letter (regex `[a-zA-Z]`). -/
def pyIsAlpha (c : Char) : Bool := ('a' ≤ c ∧ c ≤ 'z') ∨ ('A' ≤ c ∧ c ≤ 'Z')

/-- Word character for regex `\w` (letters, digits, underscore). -/
def pyIsWordChar (c : Char) : Bool := pyIsAlpha c ∨ pyIsDigit c ∨ c = '_'

/-- `str.lower` (ASCII case mapping, which covers the pipeline's data). -/
def pyLower (l : List Char) : List Char := l.map Char.toLower

/-- `str.upper` (ASCII case mapping). -/
def pyUpper (l : List Char) : List Char := l.map Char.toUpper

/-- `str.lower` on a Lean `String` (used for `content_label.lower()`). -/
def pyLowerS (s : String) : String := String.mk (s.data.map Char.toLower)

/-- `str.strip()` — drop leading and trailing whitespace. -/
def pyStrip (l : List Char) : List Char :=
  ((l.dropWhile pyIsSpace).reverse.dropWhile pyIsSpace).reverse

/-- `str.strip(chars)` — drop leading/trailing characters from a given set. -/
def pyStripChars (cs : List Char) (l : List Char) : List Char :=
  ((l.dropWhile (fun c => cs.any (fun d => d = c))).reverse.dropWhile
      (fun c => cs.any (fun d => d = c))).reverse

/-- Leading run length of characters satisfying `p`. -/
def countWhile (p : Char → Bool) (l : List Char) : Nat := (l.takeWhile p).length

/-- `int(...)` on a string of ASCII digits. -/
def digitsToInt (l : List Char) : Int :=
  (l.foldl (fun acc c => acc * 10 + (c.toNat - '0'.toNat)) 0 : Nat)

/-- Boolean membership of a word in a list of words (Python `in` on a set
of strings obtained from `re.findall`). -/
def listHas (w : List Char) (l : List (List Char)) : Bool := l.any (fun x => x = w)

/-- Python substring test `needle in hay` (character-level containment). -/
def containsSub (needle hay : List Char) : Bool :=
  match hay with
  | [] => needle = []
  | _ :: rest => needle.isPrefixOf hay || containsSub needle rest

/-- Case-insensitive substring test (`re.search` of a literal with
`re.IGNORECASE`). -/
def containsSubCI (needle hay : List Char) : Bool :=
  containsSub (pyLower needle) (pyLower hay)

/-- `re.findall(r'\w+', s)`: maximal runs of word characters, via a
left-to-right accumulator machine (`cur` is the reversed current run). -/
def wordRunsGo (cur : List Char) : List Char → List (List Char)
  | [] => if cur = [] then [] else [cur.reverse]
  | c :: rest =>
      if pyIsWordChar c then wordRunsGo (c :: cur) rest
      else if cur = [] then wordRunsGo [] rest
      else cur.reverse :: wordRunsGo [] rest

/-- `re.findall(r'\w+', s)`. -/
def pyWords (l : List Char) : List (List Char) := wordRunsGo [] l

/-- `re.findall(r'\d+', s)`: maximal runs of digits. -/
def digitRunsGo (cur : List Char) : List Char → List (List Char)
  | [] => if cur = [] then [] else [cur.reverse]
  | c :: rest =>
      if pyIsDigit c then digitRunsGo (c :: cur) rest
      else if cur = [] then digitRunsGo [] rest
      else cur.reverse :: digitRunsGo [] rest

/-- `re.findall(r'\d+', s)`. -/
def digitRuns (l : List Char) : List (List Char) := digitRunsGo [] l

/-- `re.sub(r"\s+", " ", s)`: collapse every whitespace run to one space.
`prevWs` records whether the previous character was part of a run. -/
def collapseWsGo (prevWs : Bool) : List Char → List Char
  | [] => []
  | c :: rest =>
      if pyIsSpace c then
        if prevWs then collapseWsGo true rest else ' ' :: collapseWsGo true rest
      else c :: collapseWsGo false rest

/-- `re.sub(r"\s+", " ", s)`. -/
def collapseWs (l : List Char) : List Char := collapseWsGo false l

/-- `re.sub(r"<.*?>", "", s)` (semantics.py line 9).  `.` does not match
a newline, so a `<` is removed together with everything up to the first
`>` in the same line; a `<` with no `>` before the next newline stays.
`buf` holds the (reversed) pending characters since an unmatched `<`. -/
def removeTagsGo (buf : Option (List Char)) : List Char → List Char
  | [] => match buf with | none => [] | some b => b.reverse
  | c :: rest =>
      match buf with
      | none =>
          if c = '<' then removeTagsGo (some [c]) rest
          else c :: removeTagsGo none rest
      | some b =>
          if c = '>' then removeTagsGo none rest
          else if c = '\n' then b.reverse ++ '\n' :: removeTagsGo none rest
          else removeTagsGo (some (c :: b)) rest

/-- `re.sub(r"<.*?>", "", s)`. -/
def removeTags (l : List Char) : List Char := removeTagsGo none l

/-- `re.search(r"\\[a-zA-Z]+|[\^{}$]", s)` (semantics.py line 14): a
backslash followed by an ASCII letter, or one of `^ { } $`. -/
def isLatexSignature : List Char → Bool
  | [] => false
  | c :: rest =>
      if c = '^' ∨ c = '{' ∨ c = '}' ∨ c = '$' then true
      else if c = '\\' then
        match rest with
        | d :: _ => if pyIsAlpha d then true else isLatexSignature rest
        | [] => false
      else isLatexSignature rest

/-- `re.sub(r'\\mathrm\{+(.*?)\}+', r'\1', s)` (semantics.py line 70).
After the literal `\mathrm` and a greedy run of `{`, the lazy group ends
at the first `}` of the same line; the greedy `\}+` then eats the whole
run of `}`.  `findGroup` returns the group and the number of characters
consumed from its argument (group, braces run included). -/
def findGroup (acc : List Char) (consumed : Nat) : List Char → Option (List Char × Nat)
  | [] => none
  | c :: rest =>
      if c = '}' then
        let run := countWhile (fun d => d = '}') (c :: rest)
        some (acc.reverse, consumed + run)
      else if c = '\n' then none
      else findGroup (c :: acc) (consumed + 1) rest

/-- One pass of the `\mathrm` rewrite; `fuel` bounds the scan (callers pass
`length + 1`, enough since every step consumes at least one character). -/
def subMathrmGo (fuel : Nat) (l : List Char) : List Char :=
  match fuel with
  | 0 => l
  | fuel + 1 =>
    match l with
    | [] => []
    | c :: rest =>
        if c = '\\' ∧ (lc "mathrm").isPrefixOf rest ∧
            (rest.drop 6).headD ' ' = '{' then
          let afterLit := rest.drop 6
          let b := countWhile (fun d => d = '{') afterLit
          match findGroup [] 0 (afterLit.drop b) with
          | some (grp, consumed) =>
              grp ++ subMathrmGo fuel ((afterLit.drop b).drop consumed)
          | none => c :: subMathrmGo fuel rest
        else c :: subMathrmGo fuel rest

/-- `re.sub(r'\\mathrm\{+(.*?)\}+', r'\1', s)`. -/
def subMathrm (l : List Char) : List Char := subMathrmGo (l.length + 1) l

/-- Character class `[\s~\\{}]` of the trailing-noise pattern. -/
def isTailNoise (c : Char) : Bool := pyIsSpace c ∨ c = '~' ∨ c = '\\' ∨ c = '{' ∨ c = '}'

/-- Largest`ℓ ∈ [5, L]` such that everything after the first `ℓ` characters
of `l` is whitespace (the greedy `{5,}` with lookahead `(?=\s*$)`). -/
def tailMatchLen (l : List Char) (L : Nat) : Option Nat :=
  (List.range (L - 4)).reverse.findSome? (fun d =>
    let len := 5 + d
    if len ≤ L ∧ (l.drop len).all pyIsSpace then some len else none)

/-- `re.sub(r'[\s~\\{}]{5,}(?=\s*$)', '', s)` (semantics.py line 74): a run
of at least five whitespace/tilde/backslash/brace characters is deleted
when only whitespace follows it. -/
def subTrailGo (fuel : Nat) (l : List Char) : List Char :=
  match fuel with
  | 0 => l
  | fuel + 1 =>
    match l with
    | [] => []
    | c :: rest =>
        if isTailNoise c then
          let L := countWhile isTailNoise (c :: rest)
          match tailMatchLen (c :: rest) L with
          | some len => subTrailGo fuel ((c :: rest).drop len)
          | none => c :: subTrailGo fuel rest
        else c :: subTrailGo fuel rest

/-- `re.sub(r'[\s~\\{}]{5,}(?=\s*$)', '', s)`. -/
def subTrail (l : List Char) : List Char := subTrailGo (l.length + 1) l

/-- `re.sub(r'~+', ' ', s)` (semantics.py line 77). -/
def tildeRunsGo (prevTilde : Bool) : List Char → List Char
  | [] => []
  | c :: rest =>
      if c = '~' then
        if prevTilde then tildeRunsGo true rest else ' ' :: tildeRunsGo true rest
      else c :: tildeRunsGo false rest

/-- `re.sub(r'~+', ' ', s)`. -/
def tildeRuns (l : List Char) : List Char := tildeRunsGo false l

/-- Python `str.replace(pat, rep)`: replace all non-overlapping occurrences
left to right (`pat` nonempty; `fuel` as elsewhere). -/
def replaceStrGo (fuel : Nat) (pat rep : List Char) (l : List Char) : List Char :=
  match fuel with
  | 0 => l
  | fuel + 1 =>
    match l with
    | [] => []
    | c :: rest =>
        if pat ≠ [] ∧ pat.isPrefixOf (c :: rest) then
          rep ++ replaceStrGo fuel pat rep ((c :: rest).drop pat.length)
        else c :: replaceStrGo fuel pat rep rest

/-- Python `str.replace(pat, rep)`. -/
def replaceStr (pat rep l : List Char) : List Char :=
  replaceStrGo (l.length + 1) pat rep l

/-- `re.sub(r'\{+\s*\}+', '', s)` (semantics.py line 86): a run of `{`,
optional whitespace, and a run of at least one `}` is deleted. -/
def subEmptyGroupsGo (fuel : Nat) (l : List Char) : List Char :=
  match fuel with
  | 0 => l
  | fuel + 1 =>
    match l with
    | [] => []
    | c :: rest =>
        if c = '{' then
          let b := countWhile (fun d => d = '{') (c :: rest)
          let afterB := (c :: rest).drop b
          let w := countWhile pyIsSpace afterB
          let e := countWhile (fun d => d = '}') (afterB.drop w)
          if e ≥ 1 then subEmptyGroupsGo fuel (afterB.drop (w + e))
          else c :: subEmptyGroupsGo fuel rest
        else c :: subEmptyGroupsGo fuel rest

/-- `re.sub(r'\{+\s*\}+', '', s)`. -/
def subEmptyGroups (l : List Char) : List Char :=
  subEmptyGroupsGo (l.length + 1) l

/-- `SemanticClassifier.clean_latex_ocr_noise` (semantics.py lines 64-88). -/
def clean_latex_ocr_noise (text : List Char) : List Char :=
  if text = [] then text
  else
    let t1 := subMathrm text
    let t2 := subTrail t1
    let t3 := tildeRuns t2
    let t4 := replaceStr (lc "\\qquad") (lc " ") t3
    let t5 := replaceStr (lc "\\quad") (lc " ") t4
    let t6 := replaceStr (lc "&") (lc " ") t5
    subEmptyGroups t6

/-- `SemanticClassifier.clean_text` (semantics.py lines 7-25): strip
HTML-like tags and non-printable characters, run the LaTeX noise cleaner
when a LaTeX signature is present, then normalize whitespace and strip. -/
def cleanTextSem (text : List Char) : List Char :=
  let t1 := removeTags text
  let t2 := t1.filter pyIsPrintable
  let t3 := if isLatexSignature t2 then clean_latex_ocr_noise t2 else t2
  pyStrip (collapseWs t3)

/-- Result of `SemanticClassifier.classify`: the `role`/`clean_text` pair,
plus `page_number` when present (absent dict key modelled as `none`). -/
structure ClassifyResult where
  role : String
  page_number : Option Int
  clean_text : List Char
deriving DecidableEq

/-- `SEMANTIC_PATTERNS["CHAPTER"].search`: `^[A-Z\s]{5,25}$` — between 5 and
25 uppercase-or-whitespace characters spanning the whole string (`$` also
matches just before a final newline). -/
def chapterPat (l : List Char) : Bool :=
  let cls := fun c => (('A' ≤ c ∧ c ≤ 'Z') ∨ pyIsSpace c : Bool)
  (5 ≤ l.length ∧ l.length ≤ 25 ∧ l.all cls) ∨
  (6 ≤ l.length ∧ l.length ≤ 26 ∧ (l.take (l.length - 1)).all cls ∧
    l.getLastD ' ' = '\n')

/-- `d+ '.' d+` at the head of the string (first alternative of the SECTION
pattern; the `\d+\.\d+\.\d+` alternative is subsumed for a match test). -/
def decimalHead (l : List Char) : Bool :=
  let r := countWhile pyIsDigit l
  1 ≤ r ∧ (l.drop r).headD ' ' = '.' ∧ pyIsDigit ((l.drop (r + 1)).headD ' ')

/-- `SEMANTIC_PATTERNS["SECTION"].search`:
`^(?:\d+\.\d+|\d+\.\d+\.\d+|Exercise\s+\d+\.\d+)`. -/
def sectionPat (l : List Char) : Bool :=
  decimalHead l ∨
  ((lc "Exercise").isPrefixOf l ∧
    (let r := l.drop 8
     let w := countWhile pyIsSpace r
     1 ≤ w ∧ decimalHead (r.drop w)))

/-- Case-insensitive literal prefix, then `\s+`, then `\d+` (ACTIVITY and
EXAMPLE patterns `^Activity\s+\d+` / `^Example\s+\d+`, `re.IGNORECASE`). -/
def wordThenNumber (word : List Char) (l : List Char) : Bool :=
  (pyLower word).isPrefixOf (pyLower l) ∧
  (let r := l.drop word.length
   let w := countWhile pyIsSpace r
   1 ≤ w ∧ pyIsDigit ((r.drop w).headD ' '))

/-- `SEMANTIC_PATTERNS["FIGURE_CAPTION"].search`:
`^(?:Fig\.|Figure)\s+\d+\.\d+` with `re.IGNORECASE`. -/
def figureCaptionPat (l : List Char) : Bool :=
  let tailOk := fun (r : List Char) =>
    (let w := countWhile pyIsSpace r
     1 ≤ w ∧ decimalHead (r.drop w) : Bool)
  ((pyLower (lc "fig.")).isPrefixOf (pyLower l) ∧ tailOk (l.drop 4)) ∨
  ((pyLower (lc "figure")).isPrefixOf (pyLower l) ∧ tailOk (l.drop 6))

/-- `SemanticClassifier.classify` (semantics.py lines 27-62).  Order:
empty input, page-number rule (short text containing digits), equation
rule, the hard-coded `IRCLES` chapter fix, the pattern table, BODY. -/
def classify (text : List Char) : ClassifyResult :=
  if text = [] then ⟨"UNKNOWN", none, []⟩
  else
    let cleaned := cleanTextSem text
    if cleaned.length < 15 ∧ digitRuns cleaned ≠ [] then
      ⟨"PAGE_NUMBER", some (digitsToInt ((digitRuns cleaned).headD [])), cleaned⟩
    else if '\\' ∈ cleaned ∨ '^' ∈ cleaned ∨ '_' ∈ cleaned ∨ '{' ∈ cleaned ∨
        '}' ∈ cleaned then
      ⟨"EQUATION", none, cleaned⟩
    else if cleaned.length ≤ 15 ∧ (lc "IRCLES").isSuffixOf (pyUpper cleaned) then
      ⟨"CHAPTER", none, lc "CIRCLES"⟩
    else if chapterPat cleaned then ⟨"CHAPTER", none, cleaned⟩
    else if sectionPat cleaned then ⟨"SECTION", none, cleaned⟩
    else if wordThenNumber (lc "Activity") cleaned then ⟨"ACTIVITY", none, cleaned⟩
    else if wordThenNumber (lc "Example") cleaned then ⟨"EXAMPLE", none, cleaned⟩
    else if figureCaptionPat cleaned then ⟨"FIGURE_CAPTION", none, cleaned⟩
    else ⟨"BODY", none, cleaned⟩

/-! ## PageNumberTracker (src/processing/page_no_tracker.py) -/

/-- The absurd-number filter at the top of `resolve` (lines 8-11):
detected values outside `(0, 2000]` are treated as `None`. -/
def sanitizeDetected (d : Option Int) : Option Int :=
  match d with
  | some v => if v ≤ 0 ∨ v > 2000 then none else some v
  | none => none

/-- `PageNumberTracker.resolve` (lines 5-33), as a transition on the
tracker's only state `offset : Option Int`.  Returns the new offset and
the resolved printed page number. -/
def PageNumberTracker.resolve (offset : Option Int) (pdf_page : Int)
    (detected_printed : Option Int) : Option Int × Option Int :=
  let d := sanitizeDetected detected_printed
  match d, offset with
  | some v, none => (some (v - pdf_page), some v)
  | some v, some off =>
      let expected := pdf_page + off
      if v = expected then (some off, some v) else (some off, some expected)
  | none, some off => (some off, some (pdf_page + off))
  | none, none => (none, none)

/-- A sequence of `resolve` calls from a given state: final offset and the
list of returned values (used to state the lock invariant). -/
def runResolve (offset : Option Int) : List (Int × Option Int) → Option Int × List (Option Int)
  | [] => (offset, [])
  | (p, d) :: rest =>
      let r := PageNumberTracker.resolve offset p d
      let rec' := runResolve r.1 rest
      (rec'.1, r.2 :: rec'.2)

/-! ## Blocks and transform_structure (src/semantics/semantics.py 161-185,
src/modules/extract.py 24-92) -/

/-- The `toc_link` dict attached to a block; keys absent from the dict are
`none` (`dict.get` returns `None`). -/
structure TocLink where
  unit_id : Option Int
  unit_name : Option (List Char)
  chapter_id : Option Int
  chapter_name : Option (List Char)
deriving DecidableEq

/-- A TOC entry / hierarchy node as produced by the TOC extractor and
consumed by `get_toc_metadata` and `StructuralMatcher`. -/
structure TocNode where
  unit_id : Option Int
  unit_name : Option (List Char)
  chapter_id : Option Int
  chapter_name : Option (List Char)
  start_page : Option Int
  end_page : Option Int
deriving DecidableEq

/-- A work-in-progress block dict built by `run_single_page` (extract.py
lines 82-90).  The `bbox` entry is not read by any claim-relevant code and
is omitted. -/
structure Block where
  pdf_page : Int
  printed_page : Option Int
  content_label : String
  text : List Char
  semantic_role : String
  toc_link : TocLink
deriving DecidableEq

/-- The final output record built by `transform_structure`. -/
structure OutRecord where
  id : String
  sequence_id : Nat
  unit_id : Option Int
  unit_name : Option (List Char)
  chapter_id : Option Int
  chapter_name : Option (List Char)
  page_number : Option Int
  pdf_page : Int
  block_index : Nat
  content_type : String
  text : List Char
deriving DecidableEq

/-- Python `x or 'None'` inside the f-string of `transform_structure`
(line 172): `None` and `0` are falsy and print as `None`. -/
def pyOrNoneStr (x : Option Int) : String :=
  match x with
  | some v => if v = 0 then "None" else toString v
  | none => "None"

/-- `transform_structure` (semantics.py lines 161-185). -/
def transform_structure (b : Block) (block_index : Nat) : OutRecord :=
  let label := pyLowerS b.content_label
  let content_type := if label = "equation" then "equation" else "text"
  { id := "u" ++ pyOrNoneStr b.toc_link.unit_id ++ "_c" ++
        pyOrNoneStr b.toc_link.chapter_id ++ "_pNone_b" ++ toString block_index,
    sequence_id := block_index,
    unit_id := b.toc_link.unit_id,
    unit_name := b.toc_link.unit_name,
    chapter_id := b.toc_link.chapter_id,
    chapter_name := b.toc_link.chapter_name,
    page_number := b.printed_page,
    pdf_page := b.pdf_page,
    block_index := block_index,
    content_type := content_type,
    text := b.text }

/-! ## run_single_page and the deep extraction loop
(src/modules/extract.py lines 24-92 and 94-191) -/

/-- `LABEL_MAP` (config.py lines 58-78) as an association list. -/
def LABEL_MAP : List (String × String) :=
  [("Text", "TEXT"), ("Title", "TEXT"), ("SectionHeader", "TEXT"),
   ("List", "TEXT"), ("ListItem", "TEXT"), ("Caption", "TEXT"),
   ("Footnote", "TEXT"), ("PageFooter", "TEXT"), ("PageHeader", "TEXT"),
   ("Formula", "MATH"), ("Equation", "MATH"), ("Text-inline-math", "MATH"),
   ("Picture", "VISUAL"), ("Figure", "VISUAL"), ("Image", "VISUAL"),
   ("Graphic", "VISUAL"), ("Table", "TABLE")]

/-- `LABEL_MAP.get(label)`. -/
def labelMapGet (label : String) : Option String :=
  match LABEL_MAP.find? (fun p => p.1 = label) with
  | some p => some p.2
  | none => none

/-- The nested `get_toc_metadata` of `run_single_page` (extract.py lines
28-54): first hierarchy entry whose page range contains the printed page
(open-ended when `end_page` is missing).  An empty hierarchy list models a
falsy `hierarchy_data` (`None` or `[]`). -/
def gtmLoop (p : Int) : List TocNode → TocLink
  | [] => ⟨none, none, none, none⟩
  | e :: rest =>
      match e.start_page, e.end_page with
      | some s, some en =>
          if s ≤ p ∧ p ≤ en then ⟨none, none, e.chapter_id, e.chapter_name⟩
          else gtmLoop p rest
      | some s, none =>
          if s ≤ p then ⟨none, none, e.chapter_id, e.chapter_name⟩
          else gtmLoop p rest
      | none, _ => gtmLoop p rest

/-- `get_toc_metadata` (extract.py lines 28-54). -/
def get_toc_metadata (current_page : Option Int) (h_data : List TocNode) : TocLink :=
  if h_data = [] then ⟨none, none, none, none⟩
  else
    match current_page with
    | none => ⟨none, none, none, none⟩
    | some p => gtmLoop p h_data

/-- A detected layout box together with the OCR text of its crop (the
layout model and OCR engine are external services, so their outputs are
inputs here). -/
structure BoxIn where
  label : String
  text : List Char
deriving DecidableEq

/-- Per-page input of the deep extraction loop: the result of
`find_printed_page_no` (which depends only on external OCR output) and the
page's detected boxes with their OCR text. -/
structure PageIn where
  rawDetected : Option Int
  boxes : List BoxIn
deriving DecidableEq

/-- `run_single_page` (extract.py lines 24-92), given the tracker state.
Returns the page's blocks, the new tracker offset and `is_ready`
(`tracker.offset is not None`). -/
def run_single_page (page_no : Int) (p : PageIn) (hierarchy : List TocNode)
    (offset : Option Int) : List Block × Option Int × Bool :=
  let r := PageNumberTracker.resolve offset page_no p.rawDetected
  let printed_no := r.2
  let blocks := p.boxes.filterMap (fun bx =>
    let res := classify bx.text
    if res.role = "PAGE_NUMBER" then none
    else
      let role := if labelMapGet bx.label = some "VISUAL" then "FIGURE_BLOCK"
        else res.role
      let ctext := if role = "FIGURE_BLOCK" then [] else res.clean_text
      some { pdf_page := page_no, printed_page := printed_no,
             content_label := bx.label, text := ctext, semantic_role := role,
             toc_link := get_toc_metadata printed_no hierarchy })
  (blocks, r.1, r.1.isSome)

/-- Loop state of `run_deep_extraction` (extract.py lines 132-137):
tracker offset, `offset_locked`, `pending_buffer`, `block_counter`. -/
structure DState where
  offset : Option Int
  locked : Bool
  pending : List (Int × List Block)
  counter : Nat
deriving DecidableEq

/-- `transform_structure` applied to consecutive block indices starting at
`n` (the `block_counter` bookkeeping of extract.py lines 153-164). -/
def transformFrom (n : Nat) : List Block → List OutRecord
  | [] => []
  | b :: bs => transform_structure b n :: transformFrom (n + 1) bs

/-- The buffer flush of extract.py lines 153-161: every buffered page is
emitted as one batch, its blocks' `printed_page` overwritten with
`old_pdf_no + offset`, with a per-block running `block_counter`. -/
def flushPending (off : Int) (counter : Nat) :
    List (Int × List Block) → List (List OutRecord) × Nat
  | [] => ([], counter)
  | (pno, bs) :: rest =>
      let corrected := pno + off
      let batch := transformFrom counter
        (bs.map (fun b => { b with printed_page := some corrected }))
      let r := flushPending off (counter + bs.length) rest
      (batch :: r.1, r.2)

/-- The final-cleanup flush of extract.py lines 184-189: each buffered
page becomes one batch, all of whose records share the batch's starting
`block_counter` (the counter is only advanced per batch there). -/
def finalFlushBatches (counter : Nat) : List (Int × List Block) → List (List OutRecord)
  | [] => []
  | (_, bs) :: rest =>
      (bs.map (fun b => transform_structure b counter)) ::
        finalFlushBatches (counter + bs.length) rest

/-- The page loop of `run_deep_extraction` (extract.py lines 140-171),
without the `finally` clause.  Yielded batches are collected into a list;
the final loop state is returned alongside. -/
def deepLoopAux (hierarchy : List TocNode) :
    DState → List (Int × PageIn) → List (List OutRecord) × DState
  | st, [] => ([], st)
  | st, (pno, p) :: rest =>
      let r := run_single_page pno p hierarchy st.offset
      let blocks := r.1
      match r.2.1 with
      | some off =>
          if st.locked then
            let batch := transformFrom st.counter blocks
            let k := deepLoopAux hierarchy
              ⟨some off, true, st.pending, st.counter + blocks.length⟩ rest
            (batch :: k.1, k.2)
          else
            let fl := flushPending off st.counter st.pending
            let batch := transformFrom fl.2 blocks
            let k := deepLoopAux hierarchy
              ⟨some off, true, [], fl.2 + blocks.length⟩ rest
            (fl.1 ++ batch :: k.1, k.2)
      | none =>
          deepLoopAux hierarchy
            ⟨none, st.locked, st.pending ++ [(pno, blocks)], st.counter⟩ rest

/-- Initial loop state (extract.py lines 132-137): offset unlocked, empty
buffer, `block_counter = 1`. -/
def initDState : DState := ⟨none, false, [], 1⟩

/-- `run_deep_extraction` (extract.py lines 94-191): the page loop
followed by the `finally` clause, which flushes the buffer untouched when
the offset was never locked.  The `except` clause (lines 173-180) is not
modelled: none of the embedded per-page operations can raise. -/
def run_deep_extraction (hierarchy : List TocNode)
    (pages : List (Int × PageIn)) : List (List OutRecord) :=
  let r := deepLoopAux hierarchy initDState pages
  r.1 ++ (if r.2.pending ≠ [] ∧ r.2.locked = false then
    finalFlushBatches r.2.counter r.2.pending else [])

/-! ## Sync phase (src/processing/pipeline_utils.py lines 33-59, and the
inline candidate check of src/main.py lines 136-153) -/

/-- The per-candidate match test of `run_sync_phase` (pipeline_utils.py
lines 48-55), applied to a detected text that has already been lowercased
and stripped: the text must be non-empty and longer than 3 characters, and
the set of words of the (lowercased) anchor must be a non-empty subset of
the set of words of the detected text. -/
def syncCandidateMatch (target_anchor detected_text : List Char) : Bool :=
  if detected_text ≠ [] ∧ detected_text.length > 3 then
    let anchor_words := pyWords (pyLower target_anchor)
    let detected_words := pyWords (pyLower detected_text)
    anchor_words.all (fun w => listHas w detected_words) ∧ anchor_words ≠ []
  else false

/-- A box as seen by the sync phase: layout label, top-y coordinate, and
the OCR text of its crop (raw engine output; lowering/stripping happens in
the function, as in the source). -/
structure SyncBox where
  label : String
  y1 : Int
  text : List Char
deriving DecidableEq

/-- `run_sync_phase` (pipeline_utils.py lines 33-59): check the first 3
boxes with heading-like labels in the upper 30% of the page; succeed on
the first candidate whose lowercased, stripped OCR text passes
`syncCandidateMatch`.  The float comparison `y1 < height * 0.3` is
rendered exactly over the rationals as `10 * y1 < 3 * height`. -/
def run_sync_phase (target_anchor : Option (List Char)) (boxes : List SyncBox)
    (height : Int) : Bool :=
  match target_anchor with
  | none => false
  | some anchor =>
      (boxes.take 3).any (fun b =>
        (decide (b.label ∈ ["SectionHeader", "Text", "Title", "PageHeader"])) ∧
        10 * b.y1 < 3 * height ∧
        syncCandidateMatch anchor (pyStrip (pyLower b.text)))

/-- The inline sync candidate check of `main.py` lines 136-153, given the
captured anchor and a lowercased, stripped detected text: an exact
substring match in either direction (guarded by anchor truthiness), with
the word-subset test as fallback. -/
def mainSyncCandidateMatch (target_anchor detected_text : List Char) : Bool :=
  if detected_text ≠ [] ∧ detected_text.length > 3 then
    if target_anchor ≠ [] ∧
        (containsSub target_anchor detected_text ∨
         containsSub detected_text target_anchor) then true
    else
      let anchor_words := pyWords (pyLower target_anchor)
      let detected_words := pyWords (pyLower detected_text)
      anchor_words.all (fun w => listHas w detected_words) ∧
        anchor_words.length > 0
  else false

/-! ## Reading-order sort (src/processing/optimize_layout.py lines 94-128) -/

/-- A layout box with its label and bounding-box corners. -/
structure LBox where
  label : String
  x1 : Int
  y1 : Int
  x2 : Int
  y2 : Int
deriving DecidableEq

/-- Stable insertion preserving original order among equal keys: `b` goes
after every element whose key is `≤` its own (Python `sorted` is stable). -/
def insertByY (b : LBox) : List LBox → List LBox
  | [] => [b]
  | x :: xs => if b.y1 < x.y1 then b :: x :: xs else x :: insertByY b xs

/-- `sorted(raw_boxes, key=lambda b: b.bbox[1])`. -/
def sortByY (l : List LBox) : List LBox := l.foldl (fun acc b => insertByY b acc) []

/-- Stable sort by the left-x coordinate (`row.sort(key=lambda b: b.bbox[0])`). -/
def insertByX (b : LBox) : List LBox → List LBox
  | [] => [b]
  | x :: xs => if b.x1 < x.x1 then b :: x :: xs else x :: insertByX b xs

/-- `row.sort(key=lambda b: b.bbox[0])`. -/
def sortByX (l : List LBox) : List LBox := l.foldl (fun acc b => insertByX b acc) []

/-- The row-building loop of `get_unified_sorting` (optimize_layout.py
lines 104-120), transcribed as written: when the candidate box's top-y is
within `tolerance` of the previous box's (`abs(curr_y - prev_y) <=
tolerance`, comment `# same row`), line 115 executes `current_row = [box]`
— the row is *replaced*, not appended to, so the earlier boxes of the row
are dropped.  Only when the tolerance is exceeded is the finished row
pushed onto `rows`. -/
def groupRowsGo (tol : Int) (current_row : List LBox) : List LBox → List (List LBox)
  | [] => [current_row]
  | box :: rest =>
      let prev := current_row.getLastD box
      if |box.y1 - prev.y1| ≤ tol then groupRowsGo tol [box] rest
      else current_row :: groupRowsGo tol [box] rest

/-- `get_unified_sorting` (optimize_layout.py lines 94-128): sort by
top-y, group into rows, sort each row left-to-right and flatten. -/
def get_unified_sorting (raw_boxes : List LBox) (tolerance : Int) : List LBox :=
  match sortByY raw_boxes with
  | [] => []
  | b0 :: rest =>
      let rows := groupRowsGo tolerance [b0] rest
      (rows.map sortByX).flatten

/-! ## Page-number strategy (src/processing/page_strategy.py) -/

/-- `re.match(r'^(\d+)', s)`: the leading digit run as an integer. -/
def leadingNumber (l : List Char) : Option Int :=
  let r := countWhile pyIsDigit l
  if 1 ≤ r then some (digitsToInt (l.take r)) else none

/-- `_extract_page_val` (page_strategy.py lines 8-27): leading number
first, then classifier-based page-number detection. -/
def extract_page_val (p_text : List Char) : Option Int :=
  if p_text = [] then none
  else
    match leadingNumber p_text with
    | some v => some v
    | none =>
        let res := classify p_text
        if res.role = "PAGE_NUMBER" then res.page_number else none

/-- `_detect_from_header` (page_strategy.py lines 29-46).  On an empty box
list it returns `None` (line 30).  Otherwise line 36 binds
`box = boxes[:2]` — a list slice — and line 37 immediately evaluates
`box.label`, which raises `AttributeError` because a Python list has no
attribute `label`; nothing after line 37 is reachable.  The exception is
modelled as `Except.error`. -/
def detect_from_header (boxes : List (LBox × List Char)) : Except String (Option Int) :=
  match boxes with
  | [] => .ok none
  | _ :: _ => .error "AttributeError: list object has no attribute label"

/-- `_detect_from_footer` (page_strategy.py lines 48-86): scan the last
two boxes, skipping VISUAL ones; for the first non-empty stripped OCR
text, return the leading number, else the classifier's page number. -/
def footerScan : List (LBox × List Char) → Option Int
  | [] => none
  | (box, text) :: rest =>
      if labelMapGet box.label = some "VISUAL" then footerScan rest
      else
        let p_text := pyStrip text
        if p_text ≠ [] then
          match leadingNumber p_text with
          | some v => some v
          | none =>
              let res := classify p_text
              if res.role = "PAGE_NUMBER" then
                match res.page_number with
                | some w => some w
                | none => footerScan rest
              else footerScan rest
        else footerScan rest

/-- `_detect_from_footer` (page_strategy.py lines 48-86). -/
def detect_from_footer (boxes : List (LBox × List Char)) : Option Int :=
  footerScan (boxes.drop (boxes.length - 2))

/-- `_detect_from_corners` (page_strategy.py lines 88-109): any non-VISUAL
box touching a corner region; classify its OCR text (not stripped here).
The corner test reads the clamped `safe_coords`; the embedding feeds the
box coordinates directly, the clamping being immaterial to any claim.
The float guards `x1 < width*0.15` etc. are rendered exactly over the
rationals (`20 * x1 < 3 * width`, `20 * x2 > 17 * width`, …). -/
def cornerScan (width height : Int) : List (LBox × List Char) → Option Int
  | [] => none
  | (box, text) :: rest =>
      if labelMapGet box.label = some "VISUAL" then cornerScan width height rest
      else
        let near_left := 20 * box.x1 < 3 * width
        let near_right := 20 * box.x2 > 17 * width
        let near_top := 20 * box.y1 < 3 * height
        let near_bottom := 20 * box.y2 > 17 * height
        if (near_top ∨ near_bottom) ∧ (near_left ∨ near_right) then
          let res := classify text
          if res.role = "PAGE_NUMBER" then
            match res.page_number with
            | some w => some w
            | none => cornerScan width height rest
          else cornerScan width height rest
        else cornerScan width height rest

/-- `_detect_from_corners` (page_strategy.py lines 88-109). -/
def detect_from_corners (width height : Int) (boxes : List (LBox × List Char)) :
    Option Int :=
  cornerScan width height boxes

/-- `find_printed_page_no` (page_strategy.py lines 111-144): strategy
dispatch.  AUTO tries header first, so a header `AttributeError`
propagates; an unknown strategy falls through to `None`. -/
def find_printed_page_no (strategy : String) (width height : Int)
    (boxes : List (LBox × List Char)) : Except String (Option Int) :=
  if strategy = "HEADER" then detect_from_header boxes
  else if strategy = "FOOTER" then .ok (detect_from_footer boxes)
  else if strategy = "CORNERS" then .ok (detect_from_corners width height boxes)
  else if strategy = "AUTO" then
    match detect_from_header boxes with
    | .error e => .error e
    | .ok (some v) => .ok (some v)
    | .ok none =>
        match detect_from_footer boxes with
        | some v => .ok (some v)
        | none => .ok (detect_from_corners width height boxes)
  else .ok none

/-! ## TOC extractor (src/modules/toc_extractor.py) -/

/-- `re.sub(r'<[^>]*>', '', s)` (toc_extractor.py line 89): here the tag
body may span newlines (`[^>]*`), so only end-of-input leaves an
unclosed `<` in place. -/
def tocTagGo (buf : Option (List Char)) : List Char → List Char
  | [] => match buf with | none => [] | some b => b.reverse
  | c :: rest =>
      match buf with
      | none =>
          if c = '<' then tocTagGo (some [c]) rest
          else c :: tocTagGo none rest
      | some b =>
          if c = '>' then tocTagGo none rest
          else tocTagGo (some (c :: b)) rest

/-- `re.sub(r'\.{2,}', ' ', s)` (toc_extractor.py line 90, leader dots):
runs of two or more dots become one space; a single dot stays. -/
def dotRunsGo (pending : Nat) : List Char → List Char
  | [] => if pending = 0 then [] else if pending = 1 then ['.'] else [' ']
  | c :: rest =>
      if c = '.' then dotRunsGo (pending + 1) rest
      else
        (if pending = 0 then [] else if pending = 1 then ['.'] else [' ']) ++
          c :: dotRunsGo 0 rest

/-- `TOCProcessorAPI.clean_text` (toc_extractor.py lines 88-91). -/
def tocCleanText (text : List Char) : List Char :=
  pyStrip (dotRunsGo 0 (tocTagGo none text))

/-- Exactly `k` digits, returning the remainder (`\d{k}` at the head). -/
def dateDigits (k : Nat) (l : List Char) : Option (List Char) :=
  if (l.take k).length = k ∧ (l.take k).all pyIsDigit then some (l.drop k) else none

/-- Match of `\d{1,2}/\d{1,2}/\d{4}` at the head (greedy with backtracking,
hence both widths are tried). -/
def dateAt (l : List Char) : Bool :=
  [2, 1].any (fun k1 =>
    match dateDigits k1 l with
    | some ('/' :: r1) =>
        [2, 1].any (fun k2 =>
          match dateDigits k2 r1 with
          | some ('/' :: r2) => (dateDigits 4 r2).isSome
          | _ => false)
    | _ => false)

/-- `re.search(r"\d{1,2}/\d{1,2}/\d{4}", s)`. -/
def dateSearch : List Char → Bool
  | [] => false
  | c :: rest => dateAt (c :: rest) || dateSearch rest

/-- `TOCProcessorAPI.is_header_or_footer` (toc_extractor.py lines 84-86):
any of the three patterns found case-insensitively. -/
def is_header_or_footer (text : List Char) : Bool :=
  containsSubCI (lc ".indd") text ∨ dateSearch text ∨
  containsSubCI (lc "Preliminary") text ∨ containsSubCI (lc "Reprint") text ∨
  containsSubCI (lc "MONTH") text ∨ containsSubCI (lc "CHAPTER TITLE") text

/-- `self.chapter_id_pattern = re.compile(r"^(\d+)\.?\s+")` — match at the
start of a line, returning the chapter-id candidate and `match.end()`.
The optional dot is kept only when whitespace follows it; without the dot
`\s+` would have to match at the `.` itself, which fails. -/
def chapterIdMatch (l : List Char) : Option (Int × Nat) :=
  let r := countWhile pyIsDigit l
  if r = 0 then none
  else
    match l.drop r with
    | '.' :: rest2 =>
        let w := countWhile pyIsSpace rest2
        if 1 ≤ w then some (digitsToInt (l.take r), r + 1 + w) else none
    | rest2 =>
        let w := countWhile pyIsSpace rest2
        if 1 ≤ w then some (digitsToInt (l.take r), r + w) else none

/-- The separator alternation `(?:-|–|—|to)` of the page pattern (with
`re.IGNORECASE` for `to`), returning its width. -/
def sepLen : List Char → Option Nat
  | '-' :: _ => some 1
  | '–' :: _ => some 1
  | '—' :: _ => some 1
  | c :: d :: _ =>
      if (c = 't' ∨ c = 'T') ∧ (d = 'o' ∨ d = 'O') then some 2 else none
  | _ => none

/-- `$` with no `re.MULTILINE`: end of string or just before a final
newline. -/
def pageEndsOk (rem : List Char) : Bool := rem = [] ∨ rem = ['\n']

/-- Match of `(\d+)(?:\s*(?:-|–|—|to)\s*(\d+))?$` at the head of `l`.
Greedy `\d+` never needs backtracking here, because a shortened digit run
is followed by a digit, which can start neither the separator part nor
`$`. -/
def pagePatAt (l : List Char) : Option (Int × Option Int) :=
  let r := countWhile pyIsDigit l
  if r = 0 then none
  else
    let g1 := digitsToInt (l.take r)
    let after := l.drop r
    let w1 := countWhile pyIsSpace after
    let rangeResult :=
      match sepLen (after.drop w1) with
      | some sl =>
          let afterSep := (after.drop w1).drop sl
          let w2 := countWhile pyIsSpace afterSep
          let afterW2 := afterSep.drop w2
          let r2 := countWhile pyIsDigit afterW2
          if 1 ≤ r2 ∧ pageEndsOk (afterW2.drop r2) then
            some (g1, some (digitsToInt (afterW2.take r2)))
          else none
      | none => none
    match rangeResult with
    | some res => some res
    | none => if pageEndsOk after then some (g1, none) else none

/-- `self.page_pattern.search(cleaned)`: leftmost match position plus the
two groups (start page, optional end page). -/
def pagePatSearchGo (idx : Nat) : List Char → Option (Nat × Int × Option Int)
  | [] => none
  | c :: rest =>
      match pagePatAt (c :: rest) with
      | some (g1, g2) => some (idx, g1, g2)
      | none => pagePatSearchGo (idx + 1) rest

/-- `self.page_pattern.search(cleaned)` (toc_extractor.py line 192). -/
def pagePatternSearch (l : List Char) : Option (Nat × Int × Option Int) :=
  pagePatSearchGo 0 l

/-- `re.fullmatch(r'\d{1,4}(\s*(?:-|–|—|to)\s*\d{1,4})?', stripped)` used
by the floating-page-number merge (toc_extractor.py line 166). -/
def isNumLine (l : List Char) : Bool :=
  let r := countWhile pyIsDigit l
  if 1 ≤ r ∧ r ≤ 4 then
    if l.drop r = [] then true
    else
      let after := l.drop r
      let w1 := countWhile pyIsSpace after
      match sepLen (after.drop w1) with
      | some sl =>
          let afterSep := (after.drop w1).drop sl
          let w2 := countWhile pyIsSpace afterSep
          let r2 := countWhile pyIsDigit (afterSep.drop w2)
          1 ≤ r2 ∧ r2 ≤ 4 ∧ (afterSep.drop w2).drop r2 = ([] : List Char)
      | none => false
  else false

/-- Step 1 of `transform_logic` (toc_extractor.py lines 163-173): a purely
numeric line is merged onto the previous line when that line starts with a
chapter-number pattern. -/
def mergeFloatLines (lines : List (List Char)) : List (List Char) :=
  lines.foldl (fun merged line =>
    let stripped := pyStrip line
    if isNumLine stripped ∧ merged ≠ [] then
      if (chapterIdMatch (pyStrip (merged.getLastD []))).isSome then
        merged.dropLast ++ [pyStrip (merged.getLastD []) ++ ' ' :: stripped]
      else merged ++ [line]
    else merged ++ [line]) []

/-- `re.sub(r'[\n\r\t]+', ' ', s)` (sanitize_title step 1). -/
def nrtRunsGo (prev : Bool) : List Char → List Char
  | [] => []
  | c :: rest =>
      if c = '\n' ∨ c = '\r' ∨ c = '\t' then
        if prev then nrtRunsGo true rest else ' ' :: nrtRunsGo true rest
      else c :: nrtRunsGo false rest

/-- Characters kept by `re.sub(r'[^\w\s\-\&\(\)]', '', s)`. -/
def keepTitleChar (c : Char) : Bool :=
  pyIsWordChar c ∨ pyIsSpace c ∨ c = '-' ∨ c = '&' ∨ c = '(' ∨ c = ')'

/-- `re.sub(r'\s{2,}', ' ', s)`: whitespace runs of length at least two
become one space; a single whitespace character is kept as-is.
`pending` is the reversed current whitespace run. -/
def ws2Go (pending : List Char) : List Char → List Char
  | [] => if pending.length ≥ 2 then [' '] else pending.reverse
  | c :: rest =>
      if pyIsSpace c then ws2Go (c :: pending) rest
      else
        (if pending.length ≥ 2 then [' '] else pending.reverse) ++
          c :: ws2Go [] rest

/-- `TOCProcessorAPI.sanitize_title` (toc_extractor.py lines 93-97). -/
def sanitize_title (text : List Char) : List Char :=
  pyStrip (ws2Go [] ((nrtRunsGo false text).filter keepTitleChar))

/-- The `\.?\s+` segment of the unit pattern after the inner digits:
returns the whitespace run consumed by `\s+` and the remainder.  With the
dot taken, `\s+` must start after it; without the dot it would have to
match at the `.`, which fails. -/
def dotWsTail (s4 : List Char) : Option (List Char × List Char) :=
  match s4 with
  | '.' :: r =>
      let w := countWhile pyIsSpace r
      if 1 ≤ w then some (r.take w, r.drop w) else none
  | _ =>
      let w := countWhile pyIsSpace s4
      if 1 ≤ w then some (s4.take w, s4.drop w) else none

/-- The final `(.+)` group: `\s+` is greedy but gives characters back one
at a time (keeping at least one) until `.+` can match at least one
non-newline character; `.+` then runs to the next newline or the end. -/
def unitG3 (wsRun remainder : List Char) : Option (List Char) :=
  (List.range wsRun.length).findSome? (fun d =>
    let keep := wsRun.length - d
    if 1 ≤ keep then
      let rem := wsRun.drop keep ++ remainder
      match rem with
      | c :: _ =>
          if c ≠ '\n' then some (rem.takeWhile (fun x => x ≠ '\n')) else none
      | [] => none
    else none)

/-- Continuation of the unit pattern after a candidate lazy group of
length `j`: `\s+(\d+)\.?\s+(.+)`. -/
def unitContinue (g1 s2 : List Char) : Option (List Char × Int × List Char) :=
  let w1 := countWhile pyIsSpace s2
  if w1 = 0 then none
  else
    let s3 := s2.drop w1
    let d := countWhile pyIsDigit s3
    if d = 0 then none
    else
      let g2 := digitsToInt (s3.take d)
      match dotWsTail (s3.drop d) with
      | none => none
      | some (wsRun, remainder) =>
          match unitG3 wsRun remainder with
          | some g3 => some (g1, g2, g3)
          | none => none

/-- The lazy `[A-Za-z\s]+?` group grows one character at a time; the first
length whose continuation matches wins. -/
def unitCheckGo (s : List Char) (j maxJ fuel : Nat) :
    Option (List Char × Int × List Char) :=
  match fuel with
  | 0 => none
  | fuel + 1 =>
      if j > maxJ then none
      else
        match unitContinue (s.take j) (s.drop j) with
        | some r => some r
        | none => unitCheckGo s (j + 1) maxJ fuel

/-- `re.search(r"^([A-Za-z\s]+?)\s+(\d+)\.?\s+(.+)", chapter_name)`
(toc_extractor.py line 205): unit headers such as `Unit 1 2. Motion`. -/
def unitCheck (s : List Char) : Option (List Char × Int × List Char) :=
  let maxJ := countWhile (fun c => pyIsAlpha c ∨ pyIsSpace c) s
  if maxJ = 0 then none else unitCheckGo s 1 maxJ maxJ

/-- The extraction state threaded through `transform_logic`
(toc_extractor.py lines 155-157): active unit, last accepted chapter id,
and the accumulated entries. -/
structure TocState where
  active_unit_id : Option Int
  active_unit_name : Option (List Char)
  last_chapter_id : Int
  out : List TocNode
deriving DecidableEq

/-- One line of step 2 of `transform_logic` (toc_extractor.py lines
176-222): header/footer filter, cleaning, length and float filters,
chapter-id match, the monotonic bounded-jump guard (line 189), page-range
extraction, title sanitizing, and unit-header splitting. -/
def tocLineStep (st : TocState) (line : List Char) : TocState :=
  if is_header_or_footer line then st
  else
    let cleaned := tocCleanText line
    if cleaned = [] ∨ cleaned.length < 6 ∨ decimalHead cleaned then st
    else
      match chapterIdMatch cleaned with
      | none => st
      | some (cand, idEnd) =>
          if cand < st.last_chapter_id ∨ cand > st.last_chapter_id + 5 then st
          else
            let startEndRaw :=
              match pagePatternSearch cleaned with
              | some (ms, g1, g2) =>
                  (some g1, g2, pyStrip ((cleaned.drop idEnd).take (ms - idEnd)))
              | none => (none, none, pyStrip (cleaned.drop idEnd))
            let start_p := startEndRaw.1
            let end_p := startEndRaw.2.1
            let raw_name := startEndRaw.2.2
            let chapter_name := sanitize_title (pyStripChars (lc " .-_") raw_name)
            if chapter_name = [] then st
            else
              match unitCheck chapter_name with
              | some (g1, g2, g3) =>
                  let uid := some cand
                  let uname := some (sanitize_title (pyStrip g1))
                  let fname := sanitize_title (pyStrip g3)
                  let node : TocNode :=
                    ⟨uid, uname, some g2, some fname, start_p, end_p⟩
                  ⟨uid, uname, g2, st.out ++ [node]⟩
              | none =>
                  let node : TocNode :=
                    ⟨st.active_unit_id, st.active_unit_name, some cand,
                      some chapter_name, start_p, end_p⟩
                  ⟨st.active_unit_id, st.active_unit_name, cand,
                    st.out ++ [node]⟩

/-- Step 3 of `transform_logic` (toc_extractor.py lines 225-228): fill a
missing `end_page` from the next entry's start page when that is truthy
(`if next_start:` — `None` and `0` are both falsy). -/
def backfillEnds : List TocNode → List TocNode
  | [] => []
  | [x] => [x]
  | x :: y :: rest =>
      let x' :=
        if x.end_page = none then
          match y.start_page with
          | some s => if s ≠ 0 then { x with end_page := some (s - 1) } else x
          | none => x
        else x
      x' :: backfillEnds (y :: rest)

/-- Initial state of `transform_logic` (toc_extractor.py lines 156-157). -/
def tocInitState : TocState := ⟨none, none, 0, []⟩

/-- `TOCProcessorAPI.transform_logic` (toc_extractor.py lines 153-230):
per page, merge floating page numbers, then process each line; finally
back-fill end pages. -/
def transform_logic (raw_pages : List (List (List Char))) : List TocNode :=
  let final := raw_pages.foldl
    (fun st page => (mergeFloatLines page).foldl tocLineStep st) tocInitState
  backfillEnds final.out

/-! ## StructuralMatcher (src/processing/structural_matcher.py) -/

/-- `re.sub(r'CHAPTER\s+\d+\s+', '', s)` (structural_matcher.py lines 16
and 40, case-sensitive): every occurrence of the prefix pattern is
removed. -/
def subChapterPrefixGo (fuel : Nat) (l : List Char) : List Char :=
  match fuel with
  | 0 => l
  | fuel + 1 =>
    match l with
    | [] => []
    | c :: rest =>
        if (lc "CHAPTER").isPrefixOf (c :: rest) then
          let after := (c :: rest).drop 7
          let w1 := countWhile pyIsSpace after
          let a2 := after.drop w1
          let d := countWhile pyIsDigit a2
          let a3 := a2.drop d
          let w2 := countWhile pyIsSpace a3
          if 1 ≤ w1 ∧ 1 ≤ d ∧ 1 ≤ w2 then subChapterPrefixGo fuel (a3.drop w2)
          else c :: subChapterPrefixGo fuel rest
        else c :: subChapterPrefixGo fuel rest

/-- `re.sub(r'CHAPTER\s+\d+\s+', '', s)`. -/
def subChapterPrefixAll (l : List Char) : List Char :=
  subChapterPrefixGo (l.length + 1) l

/-- Python dict insertion order: a repeated key keeps its first position
but takes the new value. -/
def dictInsert (m : List (List Char × TocNode)) (k : List Char) (v : TocNode) :
    List (List Char × TocNode) :=
  if m.any (fun p => p.1 = k) then
    m.map (fun p => if p.1 = k then (k, v) else p)
  else m ++ [(k, v)]

/-- `self.chapter_map` (structural_matcher.py lines 15-18): nodes with a
truthy `chapter_name`, keyed by the uppercased name with `CHAPTER n `
prefixes removed. -/
def chapterMap (index : List TocNode) : List (List Char × TocNode) :=
  index.foldl (fun m node =>
    match node.chapter_name with
    | some nm =>
        if nm ≠ [] then dictInsert m (subChapterPrefixAll (pyUpper nm)) node
        else m
    | none => m) []

/-- `self.chapter_map.keys()`. -/
def chapterKeys (index : List TocNode) : List (List Char) :=
  (chapterMap index).map (fun p => p.1)

/-- The page-range test of the primary match (structural_matcher.py lines
27-32): `start <= n <= end`, a missing `end_page` standing for infinity,
a missing `start_page` failing the test. -/
def pageInRange (n : Int) (node : TocNode) : Bool :=
  match node.start_page, node.end_page with
  | none, _ => false
  | some s, some e => s ≤ n ∧ n ≤ e
  | some s, none => s ≤ n

/-- `StructuralMatcher.resolve_hierarchy` (structural_matcher.py lines
19-48).  `difflib.get_close_matches(..., n=1, cutoff=0.6)` is standard
library code external to the repository, so it enters as the `closeMatch`
parameter; the `chapter_map[matches[0]]` lookup is fallible in Python
(`KeyError`), modelled by `Except`.  A falsy `chapter_verify_text`
(empty string) skips the fuzzy fallback. -/
def resolve_hierarchy (index : List TocNode)
    (closeMatch : List Char → List (List Char) → Option (List Char))
    (printed_page_no : Option Int) (chapter_verify_text : List Char) :
    Except String (Option TocNode) :=
  let primary : Option TocNode :=
    match printed_page_no with
    | none => none
    | some n => index.find? (fun node => pageInRange n node)
  match primary with
  | some node => .ok (some node)
  | none =>
      if chapter_verify_text ≠ [] then
        match closeMatch (pyStrip (subChapterPrefixAll (pyUpper chapter_verify_text)))
            (chapterKeys index) with
        | some m =>
            match (chapterMap index).find? (fun p => p.1 = m) with
            | some p => .ok (some p.2)
            | none => .error "KeyError"
        | none => .ok none
      else .ok none

/-! ## Scenario builders used in theorem statements -/

/-- Pages `1..k` whose printed-number detection fails everywhere except on
the last physical page `k`, where it yields `v` (the buffer-flush
scenario of §4.7). -/
def bufferScenarioPages (k : Nat) (v : Int) (content : Nat → List BoxIn) :
    List (Int × PageIn) :=
  (List.range k).map (fun (i : Nat) =>
    (((i : Int) + 1), (⟨if i + 1 = k then some v else none, content i⟩ : PageIn)))

/-- Pages `1..k` whose printed-number detection fails on every page (the
last-resort flush scenario). -/
def noDetectPages (k : Nat) (content : Nat → List BoxIn) : List (Int × PageIn) :=
  (List.range k).map (fun (i : Nat) =>
    (((i : Int) + 1), (⟨none, content i⟩ : PageIn)))

/-- One ordinary body-text box (classified BODY: 21 characters, no digits),
used as concrete page content. -/
def plainBox : BoxIn := ⟨"Text", lc "hello world from page"⟩

/-! ## Helper lemmas -/

theorem transformFrom_append (n : Nat) (l1 l2 : List Block) :
    transformFrom n (l1 ++ l2) =
      transformFrom n l1 ++ transformFrom (n + l1.length) l2 := by
  induction l1 generalizing n with
  | nil => simp [transformFrom]
  | cons b bs ih =>
      simp [transformFrom, ih, Nat.add_assoc, Nat.add_comm 1 bs.length]

theorem transformFrom_length (n : Nat) (l : List Block) :
    (transformFrom n l).length = l.length := by
  induction l generalizing n with
  | nil => simp [transformFrom]
  | cons b bs ih => simp [transformFrom, ih]

theorem flushPending_counter (off : Int) (c : Nat) (pend : List (Int × List Block)) :
    (flushPending off c pend).2 = c + (pend.map (fun pr => pr.2.length)).sum := by
  induction pend generalizing c with
  | nil => simp [flushPending]
  | cons pr rest ih =>
      obtain ⟨pno, bs⟩ := pr
      simp [flushPending, ih, Nat.add_assoc]

theorem flushPending_length (off : Int) (c : Nat) (pend : List (Int × List Block)) :
    (flushPending off c pend).1.length = pend.length := by
  induction pend generalizing c with
  | nil => simp [flushPending]
  | cons pr rest ih =>
      obtain ⟨pno, bs⟩ := pr
      simp [flushPending, ih]

theorem flushPending_flatten (off : Int) (c : Nat) (pend : List (Int × List Block)) :
    (flushPending off c pend).1.flatten =
      transformFrom c
        ((pend.map (fun pr =>
          pr.2.map (fun b => { b with printed_page := some (pr.1 + off) }))).flatten) := by
  induction pend generalizing c with
  | nil => simp [flushPending, transformFrom]
  | cons pr rest ih =>
      obtain ⟨pno, bs⟩ := pr
      simp only [flushPending, List.map_cons, List.flatten_cons, transformFrom_append]
      rw [ih]
      simp

theorem finalFlushBatches_length (c : Nat) (pend : List (Int × List Block)) :
    (finalFlushBatches c pend).length = pend.length := by
  induction pend generalizing c with
  | nil => simp [finalFlushBatches]
  | cons pr rest ih =>
      obtain ⟨pno, bs⟩ := pr
      simp [finalFlushBatches, ih]

theorem run_single_page_printed (page_no : Int) (p : PageIn) (hier : List TocNode)
    (offset : Option Int) :
    ∀ b ∈ (run_single_page page_no p hier offset).1,
      b.printed_page = (PageNumberTracker.resolve offset page_no p.rawDetected).2 := by
  intro b hb
  simp only [run_single_page, List.mem_filterMap] at hb
  obtain ⟨bx, _, hbx⟩ := hb
  by_cases hrole : (classify bx.text).role = "PAGE_NUMBER"
  · simp [hrole] at hbx
  · simp only [hrole, if_false, Option.some_inj] at hbx
    simp [← hbx]

theorem deepLoopAux_append (hier : List TocNode) (st : DState)
    (l1 l2 : List (Int × PageIn)) :
    deepLoopAux hier st (l1 ++ l2) =
      ((deepLoopAux hier st l1).1 ++ (deepLoopAux hier (deepLoopAux hier st l1).2 l2).1,
       (deepLoopAux hier (deepLoopAux hier st l1).2 l2).2) := by
  induction l1 generalizing st with
  | nil => simp [deepLoopAux]
  | cons pg rest ih =>
      obtain ⟨pno, p⟩ := pg
      simp only [List.cons_append, deepLoopAux, List.append_eq]
      cases h : (run_single_page pno p hier st.offset).2.1 with
      | some off =>
          by_cases hl : st.locked
          · simp [hl, ih]
          · simp [hl, ih]
      | none => simp [ih]

theorem deepLoopAux_all_none (hier : List TocNode) (l : List (Int × PageIn))
    (st : DState) (hoff : st.offset = none)
    (hdet : ∀ pr ∈ l, pr.2.rawDetected = none) :
    deepLoopAux hier st l =
      ([], ⟨none, st.locked,
        st.pending ++ l.map (fun pr => (pr.1, (run_single_page pr.1 pr.2 hier none).1)),
        st.counter⟩) := by
  induction l generalizing st with
  | nil =>
      simp only [deepLoopAux, List.map_nil, List.append_nil]
      cases st with
      | mk o lk pend cnt => simp_all
  | cons pg rest ih =>
      obtain ⟨pno, p⟩ := pg
      have hd : p.rawDetected = none := hdet (pno, p) (by simp)
      have h21 : (run_single_page pno p hier st.offset).2.1 = none := by
        simp [run_single_page, hoff, hd, PageNumberTracker.resolve, sanitizeDetected]
      simp only [deepLoopAux, h21]
      rw [hoff]
      rw [ih _ rfl (fun pr hpr => hdet pr (by simp [hpr]))]
      simp [List.append_assoc]

theorem resolve_locked_step (off q : Int) (d : Option Int) :
    PageNumberTracker.resolve (some off) q d = (some off, some (q + off)) := by
  cases d with
  | none => rfl
  | some w =>
      simp only [PageNumberTracker.resolve, sanitizeDetected]
      by_cases hw : w ≤ 0 ∨ w > 2000
      · simp [hw]
      · simp only [hw, if_false]
        by_cases he : w = q + off
        · simp [he]
        · simp [he]

theorem digitRunsGo_eq_nil (l : List Char) (h : ∀ c ∈ l, pyIsDigit c = false) :
    digitRunsGo [] l = [] := by
  induction l with
  | nil => rfl
  | cons c rest ih =>
      have hc := h c (by simp)
      simp only [digitRunsGo, hc, if_false]
      simpa using ih (fun d hd => h d (by simp [hd]))

/-! ## Claim theorems -/

/-- C2: once the tracker locks (first valid detection `v` on physical page
`p` sets `offset = v - p` and returns `v`), the offset never changes on
any later call, and every later call returns `physical_page + offset`
regardless of what is detected (in particular when detection is null, out
of `(0, 2000]`, or disagrees with the projection; when it agrees, the
returned value is that same detected value). -/
theorem C2_tracker_lock_invariant (p v off : Int) (hv1 : 0 < v) (hv2 : v ≤ 2000)
    (calls : List (Int × Option Int)) :
    PageNumberTracker.resolve none p (some v) = (some (v - p), some v) ∧
    (runResolve (some off) calls).1 = some off ∧
    (runResolve (some off) calls).2 = calls.map (fun c => some (c.1 + off)) := by
  have hlock : PageNumberTracker.resolve none p (some v) = (some (v - p), some v) := by
    have hno : ¬(v ≤ 0 ∨ v > 2000) := by omega
    simp [PageNumberTracker.resolve, sanitizeDetected, hno]
  refine ⟨hlock, ?_, ?_⟩
  · induction calls with
    | nil => rfl
    | cons c rest ih =>
        obtain ⟨q, d⟩ := c
        simp [runResolve, resolve_locked_step, ih]
  · induction calls with
    | nil => rfl
    | cons c rest ih =>
        obtain ⟨q, d⟩ := c
        simp [runResolve, resolve_locked_step, ih]

/-- C2 witness: locking at physical page 3 with detected 13 gives offset
10; the subsequent calls (null, absurd 999 within range but wrong, the
agreeing 16, and out-of-range 5000) all return `physical + 10`. -/
theorem C2_witness :
    PageNumberTracker.resolve none 3 (some 13) = (some 10, some 13) ∧
    (runResolve (some 10) [(4, none), (5, some 999), (6, some 16), (7, some 5000)]).1 =
      some 10 ∧
    (runResolve (some 10) [(4, none), (5, some 999), (6, some 16), (7, some 5000)]).2 =
      [some 14, some 15, some 16, some 17] := by
  have h := C2_tracker_lock_invariant 3 13 10 (by decide) (by decide)
    [(4, none), (5, some 999), (6, some 16), (7, some 5000)]
  refine ⟨?_, h.2.1, ?_⟩
  · rw [h.1]; decide
  · rw [h.2.2]; decide

/-- C3 counterexample: `classify("Exercise 4.1")` returns role PAGE_NUMBER
(the cleaned text has 12 < 15 characters and contains digits), not the
SECTION role the claim asserts. -/
theorem C3_counterexample :
    (classify (lc "Exercise 4.1")).role = "PAGE_NUMBER" ∧
    ¬ (classify (lc "Exercise 4.1")).role = "SECTION" := by decide

/-- C3 (amended): `classify("122")` → PAGE_NUMBER 122;
`classify("Fig. 3.2 shows the circuit")` → FIGURE_CAPTION;
`classify("Exercise 4.1")` → PAGE_NUMBER with page_number 4 (the
page-number rule shadows SECTION for short digit-bearing text);
`classify("")` → UNKNOWN with empty clean_text. -/
theorem C3_amended_vectors :
    classify (lc "122") = ⟨"PAGE_NUMBER", some 122, lc "122"⟩ ∧
    classify (lc "Fig. 3.2 shows the circuit") =
      ⟨"FIGURE_CAPTION", none, lc "Fig. 3.2 shows the circuit"⟩ ∧
    classify (lc "Exercise 4.1") = ⟨"PAGE_NUMBER", some 4, lc "Exercise 4.1"⟩ ∧
    classify (lc "") = ⟨"UNKNOWN", none, []⟩ := by decide

/-- C10: any input whose cleaned text is non-empty, at most 15 characters,
digit-free, free of the equation trigger characters, and uppercases to a
string ending in `IRCLES` is classified CHAPTER with the literal
clean_text `CIRCLES`, bypassing the configured pattern table. -/
theorem C10_circles_override (s : List Char)
    (h1 : cleanTextSem s ≠ [])
    (h2 : (cleanTextSem s).length ≤ 15)
    (h3 : ∀ c ∈ cleanTextSem s, pyIsDigit c = false)
    (h4 : '\\' ∉ cleanTextSem s) (h5 : '^' ∉ cleanTextSem s)
    (h6 : '_' ∉ cleanTextSem s) (h7 : '{' ∉ cleanTextSem s)
    (h8 : '}' ∉ cleanTextSem s)
    (h9 : (lc "IRCLES").isSuffixOf (pyUpper (cleanTextSem s)) = true) :
    classify s = ⟨"CHAPTER", none, lc "CIRCLES"⟩ := by
  have hs : s ≠ [] := fun h => h1 (by rw [h]; decide)
  have hdg : digitRuns (cleanTextSem s) = [] := digitRunsGo_eq_nil _ h3
  simp [classify, hs, digitRuns] at *
  simp [hdg, h2, h4, h5, h6, h7, h8, h9, digitRuns]

/-- C10 witness: `classify("circles")` (and, by the same theorem,
`classify("SEMICIRCLES")`) is rewritten to the literal CHAPTER `CIRCLES`. -/
theorem C10_witness :
    classify (lc "circles") = ⟨"CHAPTER", none, lc "CIRCLES"⟩ ∧
    classify (lc "SEMICIRCLES") = ⟨"CHAPTER", none, lc "CIRCLES"⟩ :=
  ⟨C10_circles_override (lc "circles") (by decide) (by decide) (by decide)
    (by decide) (by decide) (by decide) (by decide) (by decide) (by decide),
   C10_circles_override (lc "SEMICIRCLES") (by decide) (by decide) (by decide)
    (by decide) (by decide) (by decide) (by decide) (by decide) (by decide)⟩

theorem deepLoopAux_lock_step (hier : List TocNode) (st : DState)
    (pno : Int) (p : PageIn) (w : Int)
    (hoff : st.offset = none) (hlk : st.locked = false)
    (hdet : sanitizeDetected p.rawDetected = some w) :
    deepLoopAux hier st [(pno, p)] =
      ((flushPending (w - pno) st.counter st.pending).1 ++
        [transformFrom (flushPending (w - pno) st.counter st.pending).2
          (run_single_page pno p hier none).1],
       ⟨some (w - pno), true, [],
        (flushPending (w - pno) st.counter st.pending).2 +
          (run_single_page pno p hier none).1.length⟩) := by
  have hres : PageNumberTracker.resolve st.offset pno p.rawDetected =
      (some (w - pno), some w) := by
    rw [hoff]
    simp only [PageNumberTracker.resolve, hdet]
  have h21 : (run_single_page pno p hier st.offset).2.1 = some (w - pno) := by
    simp [run_single_page, hres]
  simp only [deepLoopAux, h21, hlk, if_false, Bool.false_eq_true]
  rw [hoff]
/-- C1: buffer-and-flush protocol of the deep extraction loop.  For pages
`1..k` with printed-number detection null on pages `1..k-1` and first
succeeding with a valid `v` on page `k` (locking `offset = v - k`):
(1) the loop emits nothing while pages `1..k-1` are processed;
(2) the full run yields exactly `k` batches, one per page in physical
order; and (3) the flattened output is the buffered pages' blocks in
original order with `printed_page` corrected to
`buffered_physical_page + (v - k)`, followed by page `k`'s blocks (whose
`printed_page` is `v`), with consecutive block indices from 1. -/
theorem C1_buffer_flush (k : Nat) (hk : 1 ≤ k) (v : Int)
    (hv1 : 0 < v) (hv2 : v ≤ 2000)
    (content : Nat → List BoxIn) (hier : List TocNode) :
    (∀ j, j < k →
      (deepLoopAux hier initDState ((bufferScenarioPages k v content).take j)).1 = []) ∧
    (run_deep_extraction hier (bufferScenarioPages k v content)).length = k ∧
    (run_deep_extraction hier (bufferScenarioPages k v content)).flatten =
      transformFrom 1
        ((((List.range (k - 1)).map (fun (i : Nat) =>
            ((run_single_page ((i : Int) + 1) ⟨none, content i⟩ hier none).1).map
              (fun b => { b with
                printed_page := some (((i : Int) + 1) + (v - (k : Int))) }))).flatten)
          ++ (run_single_page (k : Int) ⟨some v, content (k - 1)⟩ hier none).1) := by
  obtain ⟨k', rfl⟩ : ∃ k', k = k' + 1 := ⟨k - 1, by omega⟩
  constructor
  · -- (1) nothing emitted while the offset is unlocked
    intro j hj
    have htake : (bufferScenarioPages (k' + 1) v content).take j =
        (List.range j).map (fun (i : Nat) => (((i : Int) + 1),
          (⟨if i + 1 = k' + 1 then some v else none, content i⟩ : PageIn))) := by
      unfold bufferScenarioPages
      rw [← List.map_take, List.take_range, Nat.min_eq_left (by omega)]
    rw [htake]
    have hdet : ∀ pr ∈ (List.range j).map (fun (i : Nat) => (((i : Int) + 1),
        (⟨if i + 1 = k' + 1 then some v else none, content i⟩ : PageIn))),
        pr.2.rawDetected = none := by
      intro pr hpr
      simp only [List.mem_map, List.mem_range] at hpr
      obtain ⟨i, hi, rfl⟩ := hpr
      have hne : i + 1 ≠ k' + 1 := by omega
      simp [hne]
    rw [deepLoopAux_all_none hier _ initDState rfl hdet]
  -- split the pages into the buffered prefix and the locking page
  have hpages : bufferScenarioPages (k' + 1) v content =
      ((List.range k').map (fun (i : Nat) =>
        (((i : Int) + 1), (⟨none, content i⟩ : PageIn))))
        ++ [(((k' : Int) + 1), (⟨some v, content k'⟩ : PageIn))] := by
    unfold bufferScenarioPages
    rw [List.range_succ, List.map_append]
    congr 1
    · apply List.map_congr_left
      intro i hi
      have hne : i + 1 ≠ k' + 1 := by
        have := List.mem_range.mp hi
        omega
      simp [hne]
    · simp
  have hdetpre : ∀ pr ∈ (List.range k').map (fun (i : Nat) =>
      (((i : Int) + 1), (⟨none, content i⟩ : PageIn))), pr.2.rawDetected = none := by
    intro pr hpr
    simp only [List.mem_map, List.mem_range] at hpr
    obtain ⟨i, hi, rfl⟩ := hpr
    rfl
  have hpre := deepLoopAux_all_none hier _ (⟨none, false, [], 1⟩ : DState) rfl hdetpre
  simp only [List.map_map, Function.comp_def, List.nil_append] at hpre
  -- process the locking page from the accumulated state
  have hsan : sanitizeDetected (some v) = some v := by
    have hno : ¬(v ≤ 0 ∨ v > 2000) := by omega
    simp [sanitizeDetected, hno]
  have hlock := deepLoopAux_lock_step hier
    ⟨none, false, (List.range k').map (fun (i : Nat) => (((i : Int) + 1),
      (run_single_page ((i : Int) + 1) ⟨none, content i⟩ hier none).1)), 1⟩
    ((k' : Int) + 1) ⟨some v, content k'⟩ v rfl rfl hsan
  -- assemble the full run
  have hrun : run_deep_extraction hier (bufferScenarioPages (k' + 1) v content) =
      (flushPending (v - ((k' : Int) + 1)) 1
        ((List.range k').map (fun (i : Nat) => (((i : Int) + 1),
          (run_single_page ((i : Int) + 1) ⟨none, content i⟩ hier none).1)))).1 ++
      [transformFrom (flushPending (v - ((k' : Int) + 1)) 1
        ((List.range k').map (fun (i : Nat) => (((i : Int) + 1),
          (run_single_page ((i : Int) + 1) ⟨none, content i⟩ hier none).1)))).2
        (run_single_page ((k' : Int) + 1) ⟨some v, content k'⟩ hier none).1] := by
    simp only [run_deep_extraction, initDState]
    rw [hpages, deepLoopAux_append]
    rw [hpre]
    simp only [hlock]
    simp
  constructor
  · -- (2) one batch per page
    rw [hrun]
    simp [flushPending_length]
  · -- (3) flattened output
    rw [hrun]
    rw [List.flatten_append]
    rw [flushPending_flatten]
    have hmm : ((List.range k').map (fun (i : Nat) => (((i : Int) + 1),
        (run_single_page ((i : Int) + 1) ⟨none, content i⟩ hier none).1))).map
          (fun pr => pr.2.map (fun b =>
            { b with printed_page := some (pr.1 + (v - ((k' : Int) + 1))) })) =
        (List.range k').map (fun (i : Nat) =>
          ((run_single_page ((i : Int) + 1) ⟨none, content i⟩ hier none).1).map
            (fun b => { b with
              printed_page := some (((i : Int) + 1) + (v - ((k' + 1 : Nat) : Int))) })) := by
      rw [List.map_map]
      apply List.map_congr_left
      intro i hi
      simp only [Function.comp_apply]
      have hc : ((k' + 1 : Nat) : Int) = (k' : Int) + 1 := by push_cast; ring
      rw [hc]
    rw [hmm]
    have hcnt := flushPending_counter (v - ((k' : Int) + 1)) 1
      ((List.range k').map (fun (i : Nat) => (((i : Int) + 1),
        (run_single_page ((i : Int) + 1) ⟨none, content i⟩ hier none).1)))
    have hlen : (((List.range k').map (fun (i : Nat) =>
        ((run_single_page ((i : Int) + 1) ⟨none, content i⟩ hier none).1).map
          (fun b => { b with
            printed_page := some (((i : Int) + 1) + (v - ((k' + 1 : Nat) : Int))) }))).flatten).length =
        ((((List.range k').map (fun (i : Nat) => (((i : Int) + 1),
          (run_single_page ((i : Int) + 1) ⟨none, content i⟩ hier none).1)))).map
            (fun pr => pr.2.length)).sum := by
      rw [List.length_flatten, List.map_map, List.map_map]
      congr 1
      apply List.map_congr_left
      intro i hi
      simp
    rw [hcnt, transformFrom_append]
    simp only [Nat.add_sub_cancel, List.flatten_cons, List.flatten_nil, List.append_nil]
    rw [hlen]
    push_cast
    rfl

/-- C1 witness: three pages with detection failing on pages 1-2 and
succeeding with 13 on physical page 3 (offset 10): nothing is emitted
before page 3; the run yields three batches; the emitted `page_number`
fields are 11, 12, 13 in physical order. -/
theorem C1_witness :
    (deepLoopAux [] initDState
      ((bufferScenarioPages 3 13 (fun _ => [plainBox])).take 2)).1 = [] ∧
    (run_deep_extraction [] (bufferScenarioPages 3 13 (fun _ => [plainBox]))).length = 3 ∧
    (run_deep_extraction [] (bufferScenarioPages 3 13 (fun _ => [plainBox]))).flatten.map
      (fun r => r.page_number) = [some 11, some 12, some 13] := by
  have h := C1_buffer_flush 3 (by decide) 13 (by decide) (by decide)
    (fun _ => [plainBox]) []
  exact ⟨h.1 2 (by decide), h.2.1, by decide⟩

theorem finalFlushBatches_flatten_proj (c : Nat) (pend : List (Int × List Block)) :
    ((finalFlushBatches c pend).flatten).map
        (fun r => (r.pdf_page, r.page_number, r.text)) =
      ((pend.map (fun pr => pr.2)).flatten).map
        (fun b => (b.pdf_page, b.printed_page, b.text)) := by
  induction pend generalizing c with
  | nil => simp [finalFlushBatches]
  | cons pr rest ih =>
      obtain ⟨pno, bs⟩ := pr
      simp [finalFlushBatches, ih, transform_structure, List.map_map,
        Function.comp_def]

theorem noDetect_blocks_printed (hier : List TocNode) (k : Nat)
    (content : Nat → List BoxIn) :
    ∀ b ∈ ((List.range k).map (fun (i : Nat) =>
      (run_single_page ((i : Int) + 1) ⟨none, content i⟩ hier none).1)).flatten,
      b.printed_page = none := by
  intro b hb
  simp only [List.mem_flatten, List.mem_map, List.mem_range] at hb
  obtain ⟨l, ⟨i, hi, rfl⟩, hbl⟩ := hb
  have := run_single_page_printed ((i : Int) + 1) ⟨none, content i⟩ hier none b hbl
  simpa [PageNumberTracker.resolve, sanitizeDetected] using this

/-- C4 (amended): when the end of the document is reached with the
pagination offset still unlocked, every buffered page's blocks are still
emitted, one batch per page in original order, but their `page_number`
fields are null (`printed_page` was never resolved and the final flush
does not rewrite it); the physical page number survives only in the
separate `pdf_page` field. -/
theorem C4_last_resort_flush (k : Nat) (content : Nat → List BoxIn)
    (hier : List TocNode) :
    (run_deep_extraction hier (noDetectPages k content)).length = k ∧
    (run_deep_extraction hier (noDetectPages k content)).flatten.map
        (fun r => (r.pdf_page, r.page_number, r.text)) =
      (((List.range k).map (fun (i : Nat) =>
        (run_single_page ((i : Int) + 1) ⟨none, content i⟩ hier none).1)).flatten).map
        (fun b => (b.pdf_page, (none : Option Int), b.text)) := by
  have hdet : ∀ pr ∈ noDetectPages k content, pr.2.rawDetected = none := by
    intro pr hpr
    simp only [noDetectPages, List.mem_map, List.mem_range] at hpr
    obtain ⟨i, hi, rfl⟩ := hpr
    rfl
  have hpre := deepLoopAux_all_none hier _ (⟨none, false, [], 1⟩ : DState) rfl hdet
  simp only [noDetectPages, List.map_map, Function.comp_def, List.nil_append] at hpre
  have hrun : run_deep_extraction hier (noDetectPages k content) =
      (if ((List.range k).map (fun (i : Nat) => (((i : Int) + 1),
          (run_single_page ((i : Int) + 1) ⟨none, content i⟩ hier none).1))) = []
       then []
       else finalFlushBatches 1 ((List.range k).map (fun (i : Nat) => (((i : Int) + 1),
          (run_single_page ((i : Int) + 1) ⟨none, content i⟩ hier none).1)))) := by
    simp only [run_deep_extraction, initDState, noDetectPages]
    rw [hpre]
    by_cases h0 : ((List.range k).map (fun (i : Nat) => (((i : Int) + 1),
        (run_single_page ((i : Int) + 1) ⟨none, content i⟩ hier none).1))) = []
    · simp [h0]
    · simp [h0]
  rw [hrun]
  by_cases h0 : ((List.range k).map (fun (i : Nat) => (((i : Int) + 1),
      (run_single_page ((i : Int) + 1) ⟨none, content i⟩ hier none).1))) = []
  · have hk0 : k = 0 := by
      by_contra hk
      have : (List.range k) ≠ [] := by
        simp [List.range_eq_nil, hk]
      exact this (by simpa using congrArg (List.map Prod.fst) h0)
    subst hk0
    simp
  · simp only [h0, if_false]
    constructor
    · rw [finalFlushBatches_length]
      simp
    · rw [finalFlushBatches_flatten_proj]
      have hmap : ((List.range k).map (fun (i : Nat) => (((i : Int) + 1),
          (run_single_page ((i : Int) + 1) ⟨none, content i⟩ hier none).1))).map
            (fun pr => pr.2) =
          (List.range k).map (fun (i : Nat) =>
            (run_single_page ((i : Int) + 1) ⟨none, content i⟩ hier none).1) := by
        rw [List.map_map]
        rfl
      rw [hmap]
      apply List.map_congr_left
      intro b hb
      have := noDetect_blocks_printed hier k content b hb
      simp [this]

/-- C4 counterexample: a one-page document whose detection never succeeds
emits its block with `page_number = none`, not the raw physical page
number 1 the claim asserts. -/
theorem C4_counterexample :
    (run_deep_extraction [] (noDetectPages 1 (fun _ => [plainBox]))).flatten.map
      (fun r => r.page_number) = [none] ∧
    ¬ ((run_deep_extraction [] (noDetectPages 1 (fun _ => [plainBox]))).flatten.map
      (fun r => r.page_number) = [some 1]) := by decide

theorem containsSub_iff (needle hay : List Char) :
    containsSub needle hay = true ↔ ∃ pre post, hay = pre ++ needle ++ post := by
  induction hay with
  | nil =>
      simp only [containsSub, decide_eq_true_eq]
      constructor
      · rintro rfl
        exact ⟨[], [], rfl⟩
      · rintro ⟨pre, post, h⟩
        rcases List.append_eq_nil.mp h.symm with ⟨h1, h2⟩
        rcases List.append_eq_nil.mp h1 with ⟨_, h3⟩
        exact h3
  | cons c rest ih =>
      simp only [containsSub, Bool.or_eq_true, ih]
      constructor
      · rintro (hpre | ⟨pre, post, rfl⟩)
        · rw [List.isPrefixOf_iff_prefix] at hpre
          obtain ⟨t, ht⟩ := hpre
          exact ⟨[], t, by simp [← ht]⟩
        · exact ⟨c :: pre, post, by simp⟩
      · rintro ⟨pre, post, h⟩
        cases pre with
        | nil =>
            left
            rw [List.isPrefixOf_iff_prefix]
            exact ⟨post, by simp [h]⟩
        | cons d pre' =>
            right
            rw [List.cons_append, List.cons_append, List.cons.injEq] at h
            exact ⟨pre', post, h.2⟩

theorem listHas_iff (w : List Char) (l : List (List Char)) :
    listHas w l = true ↔ w ∈ l := by
  simp [listHas, List.any_eq_true]

/-- C5 counterexample: the anchor `polynomial` is a character substring of
the detected text `polynomials` (condition (a) of the claim) and the
detected text is longer than 3 characters and sits in an eligible box in
the upper page region, yet `run_sync_phase` does not match: the substring
disjunct is absent from the sync phase. -/
theorem C5_counterexample :
    containsSub (lc "polynomial") (lc "polynomials") = true ∧
    (lc "polynomials").length > 3 ∧
    run_sync_phase (some (lc "polynomial"))
      [⟨"SectionHeader", 10, lc "polynomials"⟩] 1000 = false := by decide

/-- C5 (amended): in `pipeline_utils.run_sync_phase` a candidate text
matches iff it is longer than 3 characters and the anchor's word set is a
non-empty subset of the detected word set — condition (b) alone, with no
substring disjunct; the full disjunction (a) OR (b) of the claim holds
only for the inline candidate check of `main.py` lines 136-153. -/
theorem C5_sync_match_condition (a d : List Char) :
    (syncCandidateMatch a d = true ↔
      (3 < d.length ∧ pyWords (pyLower a) ≠ [] ∧
        ∀ w ∈ pyWords (pyLower a), w ∈ pyWords (pyLower d))) ∧
    (mainSyncCandidateMatch a d = true ↔
      (3 < d.length ∧
        ((a ≠ [] ∧ ((∃ pre post, d = pre ++ a ++ post) ∨
                    (∃ pre post, a = pre ++ d ++ post))) ∨
         (pyWords (pyLower a) ≠ [] ∧
           ∀ w ∈ pyWords (pyLower a), w ∈ pyWords (pyLower d))))) := by
  by_cases hd3 : 3 < d.length
  · have hd : d ≠ [] ∧ d.length > 3 :=
      ⟨fun h => by rw [h] at hd3; simp at hd3, hd3⟩
    constructor
    · rw [syncCandidateMatch, if_pos hd]
      simp only [decide_eq_true_eq, List.all_eq_true, listHas_iff, hd3, true_and]
      constructor
      · intro h
        exact ⟨h.2, h.1⟩
      · intro h
        exact ⟨h.2, h.1⟩
    · rw [mainSyncCandidateMatch, if_pos hd]
      by_cases ha : a ≠ [] ∧ (containsSub a d ∨ containsSub d a)
      · rw [if_pos ha]
        simp only [true_iff, hd3, true_and]
        left
        refine ⟨ha.1, ?_⟩
        rcases ha.2 with h | h
        · exact Or.inl ((containsSub_iff a d).mp h)
        · exact Or.inr ((containsSub_iff d a).mp h)
      · rw [if_neg ha]
        simp only [decide_eq_true_eq, List.all_eq_true, listHas_iff, hd3, true_and]
        constructor
        · intro h
          right
          refine ⟨?_, h.1⟩
          have := h.2
          intro hnil
          rw [hnil] at this
          simp [pyWords, wordRunsGo] at this
        · rintro (hcase | hcase)
          · exact absurd ⟨hcase.1, by
              rcases hcase.2 with h | h
              · exact Or.inl ((containsSub_iff a d).mpr h)
              · exact Or.inr ((containsSub_iff d a).mpr h)⟩ ha
          · exact ⟨hcase.2, List.length_pos.mpr hcase.1⟩
  · have hd : ¬(d ≠ [] ∧ d.length > 3) := fun h => hd3 h.2
    constructor
    · rw [syncCandidateMatch, if_neg hd]
      simp [hd3]
    · rw [mainSyncCandidateMatch, if_neg hd]
      simp [hd3]

/-- C6 (code bug): two boxes whose top-y coordinates differ by no more
than the row tolerance do not both appear in the output of
`get_unified_sorting`: line 115 replaces the current row instead of
appending to it, so the earlier box is dropped and the result is not a
permutation of the input. -/
theorem C6_sort_drops_boxes :
    get_unified_sorting
      [⟨"Text", 0, 0, 100, 20⟩, ⟨"Text", 0, 10, 100, 30⟩] 40 =
      [⟨"Text", 0, 10, 100, 30⟩] ∧
    (⟨"Text", 0, 0, 100, 20⟩ : LBox) ∉
      get_unified_sorting
        [⟨"Text", 0, 0, 100, 20⟩, ⟨"Text", 0, 10, 100, 30⟩] 40 := by decide

/-- C7 (code bug): with strategy HEADER — and hence as the first step of
AUTO — `find_printed_page_no` fails with `AttributeError` on every page
that has at least one detected box, because `_detect_from_header` binds
`box = boxes[:2]` (a list slice) and immediately reads `box.label`; only
the empty-box case returns `None` without raising. -/
theorem C7_header_raises :
    find_printed_page_no "HEADER" 1000 1000
      [(⟨"Text", 10, 10, 100, 30⟩, lc "122")] =
      .error "AttributeError: list object has no attribute label" ∧
    find_printed_page_no "AUTO" 1000 1000
      [(⟨"Text", 10, 10, 100, 30⟩, lc "122")] =
      .error "AttributeError: list object has no attribute label" ∧
    find_printed_page_no "HEADER" 1000 1000 [] = .ok none :=
  ⟨rfl, rfl, rfl⟩

/-- C8: a parsed TOC line whose leading digits give a chapter-id candidate
strictly below the last accepted chapter id, or more than 5 above it, is
rejected by `transform_logic`: no entry is appended and the whole
extraction state — the last accepted id included — is unchanged. -/
theorem C8_bounded_jump (st : TocState) (line : List Char) (c : Int) (idEnd : Nat)
    (h1 : is_header_or_footer line = false)
    (h2 : ¬(tocCleanText line = [] ∨ (tocCleanText line).length < 6 ∨
      decimalHead (tocCleanText line) = true))
    (h3 : chapterIdMatch (tocCleanText line) = some (c, idEnd))
    (h4 : c < st.last_chapter_id ∨ c > st.last_chapter_id + 5) :
    tocLineStep st line = st := by
  rw [tocLineStep]
  rw [if_neg (by rw [h1]; exact Bool.false_ne_true), if_neg h2, h3]
  exact if_pos h4

/-- C8 witness: with last accepted chapter id 10, the well-formed TOC line
`7. Coordinate Geometry 99` (candidate id 7 < 10) is rejected and the
state is unchanged. -/
theorem C8_witness :
    tocLineStep ⟨none, none, 10, []⟩ (lc "7. Coordinate Geometry 99") =
      ⟨none, none, 10, []⟩ :=
  C8_bounded_jump ⟨none, none, 10, []⟩ (lc "7. Coordinate Geometry 99") 7 3
    (by decide) (by decide) (by decide) (by decide)

theorem assocFind_of_mem_keys (m : List (List Char × TocNode)) (k : List Char)
    (h : k ∈ m.map (fun p => p.1)) :
    ∃ p, m.find? (fun p => p.1 = k) = some p := by
  rw [List.mem_map] at h
  obtain ⟨p, hp, he⟩ := h
  have hsome : (m.find? (fun q => decide (q.1 = k))).isSome := by
    rw [List.find?_isSome]
    exact ⟨p, hp, by simp [he]⟩
  exact Option.isSome_iff_exists.mp hsome

/-- C9: `resolve_hierarchy` precedence and fallback.  Under the contract
that the fuzzy matcher (stdlib `difflib.get_close_matches`) only returns
elements of the candidate list: (1) when `printed_page` lies in some
entry's range, the first such entry is returned regardless of the verify
text; (2) the function never raises; (3)-(4) when the page step fails (no
match or null page) and the fuzzy step finds nothing, the result is null. -/
theorem C9_matcher_precedence (index : List TocNode)
    (closeMatch : List Char → List (List Char) → Option (List Char))
    (hcm : ∀ q ks m, closeMatch q ks = some m → m ∈ ks) :
    (∀ n node verify, index.find? (fun nd => pageInRange n nd) = some node →
        resolve_hierarchy index closeMatch (some n) verify = .ok (some node)) ∧
    (∀ p verify, ∃ r, resolve_hierarchy index closeMatch p verify = .ok r) ∧
    (∀ n verify, index.find? (fun nd => pageInRange n nd) = none →
        closeMatch (pyStrip (subChapterPrefixAll (pyUpper verify)))
          (chapterKeys index) = none →
        resolve_hierarchy index closeMatch (some n) verify = .ok none) ∧
    (∀ verify, closeMatch (pyStrip (subChapterPrefixAll (pyUpper verify)))
          (chapterKeys index) = none →
        resolve_hierarchy index closeMatch none verify = .ok none) := by
  have fallbackTotal : ∀ verify, ∃ r,
      (if verify ≠ [] then
        (match closeMatch (pyStrip (subChapterPrefixAll (pyUpper verify)))
            (chapterKeys index) with
        | some m =>
            (match (chapterMap index).find? (fun p => p.1 = m) with
            | some p => Except.ok (some p.2)
            | none => Except.error "KeyError")
        | none => Except.ok (none : Option TocNode))
      else Except.ok none) = Except.ok r := by
    intro verify
    by_cases hv : verify ≠ []
    · rw [if_pos hv]
      cases hcmv : closeMatch (pyStrip (subChapterPrefixAll (pyUpper verify)))
          (chapterKeys index) with
      | some m =>
          obtain ⟨q, hq⟩ := assocFind_of_mem_keys (chapterMap index) m
            (hcm _ _ _ hcmv)
          exact ⟨some q.2, by simp [hq]⟩
      | none => exact ⟨none, rfl⟩
    · rw [if_neg hv]
      exact ⟨none, rfl⟩
  refine ⟨?_, ?_, ?_, ?_⟩
  · intro n node verify hfind
    simp [resolve_hierarchy, hfind]
  · intro p verify
    cases p with
    | none =>
        obtain ⟨r, hr⟩ := fallbackTotal verify
        exact ⟨r, by rw [resolve_hierarchy]; exact hr⟩
    | some n =>
        cases hf : index.find? (fun node => pageInRange n node) with
        | some node => exact ⟨some node, by simp [resolve_hierarchy, hf]⟩
        | none =>
            obtain ⟨r, hr⟩ := fallbackTotal verify
            refine ⟨r, ?_⟩
            rw [resolve_hierarchy]
            simp only [hf]
            exact hr
  · intro n verify hfind hcmv
    rw [resolve_hierarchy]
    simp only [hfind]
    by_cases hv : verify ≠ []
    · rw [if_pos hv, hcmv]
    · rw [if_neg hv]
  · intro verify hcmv
    rw [resolve_hierarchy]
    by_cases hv : verify ≠ []
    · rw [if_pos hv, hcmv]
    · rw [if_neg hv]

/-- C9 witness: with two disjoint ranges [1,10] and [11,20] and a fuzzy
matcher that never matches, `resolve_hierarchy(15, "anything")` returns
the second entry by range alone, and `resolve_hierarchy(None, "circles")`
falls through both steps to a clean null, raising nothing. -/
theorem C9_witness :
    resolve_hierarchy
      [⟨none, none, some 1, some (lc "REAL NUMBERS"), some 1, some 10⟩,
       ⟨none, none, some 2, some (lc "CIRCLES"), some 11, some 20⟩]
      (fun _ _ => none) (some 15) (lc "anything") =
      .ok (some ⟨none, none, some 2, some (lc "CIRCLES"), some 11, some 20⟩) ∧
    resolve_hierarchy
      [⟨none, none, some 1, some (lc "REAL NUMBERS"), some 1, some 10⟩,
       ⟨none, none, some 2, some (lc "CIRCLES"), some 11, some 20⟩]
      (fun _ _ => none) none (lc "circles") = .ok none := by
  have h := C9_matcher_precedence
    [⟨none, none, some 1, some (lc "REAL NUMBERS"), some 1, some 10⟩,
     ⟨none, none, some 2, some (lc "CIRCLES"), some 11, some 20⟩]
    (fun _ _ => none) (fun q ks m hm => by cases hm)
  exact ⟨h.1 15 ⟨none, none, some 2, some (lc "CIRCLES"), some 11, some 20⟩
    (lc "anything") (by decide), h.2.2.2 (lc "circles") rfl⟩
